import Mathlib

/-!
Verification of the TTL memoizing cache for asynchronous producers from
`src/decorator/decorator_cache_demo2.py`.

The source defines

* `async_cache(ttl_seconds)` returning `decorator(func)`, which closes over a
  fresh dictionary `cache` and returns the async `wrapper(*args, **kwargs)`:
  - `key = str(args) + str(kwargs)`
  - on `key in cache` with `time.time() - timestamp <= ttl_seconds` it returns
    the stored value without awaiting `func` (a hit);
  - otherwise it awaits `func(*args, **kwargs)`, stores `(res, time.time())`
    under `key`, and returns `res` (a miss);
* the demo producer `fetch_exchange_rate(from_currency, to_currency)`.

The embedding below is shallow: the dictionary becomes an association list,
wall-clock time becomes an explicit `Nat` parameter (`tCheck` for the
`time.time()` read at the hit check on line 21, `tStore` for the read at the
store on line 27), a possibly-raising producer becomes a function into
`Except`, and one wrapper invocation becomes a pure state transformer that
additionally reports whether the producer was invoked (`invoked = true` is
exactly the miss path, the only path that suspends the caller; the hit path
prints a message and returns immediately, `invoked = false`).

Python's truncating detail: `time.time() - timestamp <= ttl_seconds` is a real
comparison; modelling time as `Nat` with truncated subtraction is faithful
because `ttl_seconds ≥ 0`, so `max 0 (tCheck - timestamp) ≤ ttl ↔
tCheck - timestamp ≤ ttl`.
-/

namespace AsyncCache

/-- A Python value as far as the cache's key derivation can observe it:
the wrapper only ever applies `str` to the argument tuple and the keyword
dictionary, which in turn take `repr` of each element.  `obj rep id` models an
arbitrary object with identity `id` whose `repr` renders as `rep` (in Python,
distinct objects may share a `repr` string). -/
inductive PyVal where
  | int (n : Int)
  | str (s : String)
  | none
  | obj (rep : String) (id : Nat)
deriving DecidableEq

/-- A single-quote character as a string (Python quotes string reprs with it). -/
def sq : String := "\x27"

/-- Python `repr` of a value, as used by `str(tuple)` / `str(dict)` on the
elements.  String escaping is not modelled (no claim passes strings containing
quotes or backslashes). -/
def pyRepr : PyVal → String
  | .int n => toString n
  | .str s => sq ++ s ++ sq
  | .none => "None"
  | .obj rep _ => rep

/-- Python `str(args)` for the positional-argument tuple: `()` when empty, a
trailing comma for a 1-tuple, otherwise comma-separated reprs. -/
def pyStrTuple (args : List PyVal) : String :=
  match args with
  | [] => "()"
  | [a] => "(" ++ pyRepr a ++ ",)"
  | _ => "(" ++ String.intercalate ", " (args.map pyRepr) ++ ")"

/-- Python `str(kwargs)` for the keyword-argument dictionary, in insertion
order: `\x7b\x7d` when empty, otherwise `\x7b`…`\x7d` around comma-separated
`'name': repr(value)` items. -/
def pyStrDict (kwargs : List (String × PyVal)) : String :=
  match kwargs with
  | [] => "\x7b\x7d"
  | _ =>
      "\x7b" ++
        String.intercalate ", "
          (kwargs.map fun kv => sq ++ kv.1 ++ sq ++ ": " ++ pyRepr kv.2) ++
      "\x7d"

/-- Line 16 of the source: `key = str(args) + str(kwargs)`. -/
def deriveKey (args : List PyVal) (kwargs : List (String × PyVal)) : String :=
  pyStrTuple args ++ pyStrDict kwargs

/-- The closed-over `cache` dictionary: keys to `(res, timestamp)` pairs, in
insertion order. -/
abbrev Cache (V : Type) := List (String × V × Nat)

/-- Dictionary membership/lookup, `cache[key]`. -/
def lookup {V : Type} : Cache V → String → Option (V × Nat)
  | [], _ => Option.none
  | (k, e) :: rest, key => if k = key then some e else lookup rest key

/-- Dictionary assignment `cache[key] = (v, t)`: overwrite in place when the
key is present, otherwise append. -/
def store {V : Type} : Cache V → String → V → Nat → Cache V
  | [], key, v, t => [(key, v, t)]
  | (k, e) :: rest, key, v, t =>
      if k = key then (key, v, t) :: rest else (k, e) :: store rest key v t

/-- A producer: the wrapped `func`, receiving the forwarded positional and
keyword arguments and either returning a value or raising. -/
abbrev Producer (E V : Type) := List PyVal → List (String × PyVal) → Except E V

/-- Outcome of one wrapper invocation: the returned value or propagated
exception, the cache dictionary afterwards, and whether `func` was awaited
(`invoked = true` exactly on the miss path, the only suspension point). -/
structure CallResult (E V : Type) where
  result : Except E V
  cache : Cache V
  invoked : Bool

/-- Lines 25–28 of the source, the miss path: await `func(*args, **kwargs)`;
on success store `(res, time.time())` (read as `tStore`) and return `res`; an
exception propagates and nothing is stored. -/
def callMiss {E V : Type} (func : Producer E V) (cache : Cache V) (key : String)
    (args : List PyVal) (kwargs : List (String × PyVal)) (tStore : Nat) :
    CallResult E V :=
  match func args kwargs with
  | .ok res => ⟨.ok res, store cache key res tStore, true⟩
  | .error e => ⟨.error e, cache, true⟩

/-- Lines 15–28 of the source: one invocation of `wrapper(*args, **kwargs)`.
`tCheck` is the `time.time()` read at the freshness check (line 21), `tStore`
the read at the store (line 27). -/
def wrapper {E V : Type} (ttl_seconds : Nat) (func : Producer E V)
    (cache : Cache V) (args : List PyVal) (kwargs : List (String × PyVal))
    (tCheck tStore : Nat) : CallResult E V :=
  match lookup cache (deriveKey args kwargs) with
  | some (res, timestamp) =>
      if tCheck - timestamp ≤ ttl_seconds then ⟨.ok res, cache, false⟩
      else callMiss func cache (deriveKey args kwargs) args kwargs tStore
  | Option.none => callMiss func cache (deriveKey args kwargs) args kwargs tStore

/-- The miss condition of lines 19–23: the key is absent, or present but
stale. -/
def missAt {V : Type} (ttl_seconds : Nat) (cache : Cache V) (key : String)
    (tCheck : Nat) : Bool :=
  match lookup cache key with
  | some (_, timestamp) => ttl_seconds < tCheck - timestamp
  | Option.none => true

/-- Exchange rates returned by the demo producer: a float literal, an int
literal, or Python `None` (floats occur only as opaque returned literals, so a
rational carrying the literal's value is a faithful stand-in). -/
inductive Rate where
  | val (q : ℚ)
  | intVal (n : Int)
  | none
deriving DecidableEq

/-- Lines 33–45: the demo producer body after its simulated delay.  The
`GBP2USD` branch of the source evaluates the expression `1.32` without a
`return` statement, so the function falls off its end and returns `None`. -/
def fetch_exchange_rate (from_currency to_currency : String) : Rate :=
  let key := from_currency ++ "2" ++ to_currency
  if key = "EUR2USD" then .val (118 / 100)
  else if key = "EUR2GBP" then .val (88 / 100)
  else if key = "GBP2USD" then Rate.none
  else .intVal 0

/-! ### Dictionary lemmas -/

theorem lookup_store_self {V : Type} (c : Cache V) (key : String) (v : V) (t : Nat) :
    lookup (store c key v t) key = some (v, t) := by
  induction c with
  | nil => simp [store, lookup]
  | cons hd rest ih =>
      obtain ⟨k, e⟩ := hd
      by_cases h : k = key
      · subst h
        simp [store, lookup]
      · simp [store, lookup, h, ih]

theorem lookup_store_ne {V : Type} (c : Cache V) (key k : String) (v : V) (t : Nat)
    (h : k ≠ key) : lookup (store c key v t) k = lookup c k := by
  induction c with
  | nil => simp [store, lookup, Ne.symm h]
  | cons hd rest ih =>
      obtain ⟨k0, e⟩ := hd
      by_cases h0 : k0 = key
      · subst h0
        simp [store, lookup, Ne.symm h]
      · by_cases h1 : k0 = k
        · subst h1
          simp [store, lookup, h0]
        · simp [store, lookup, h0, h1, ih]

theorem store_length_of_mem {V : Type} (c : Cache V) (key : String) (v : V) (t : Nat)
    (h : (lookup c key).isSome = true) : (store c key v t).length = c.length := by
  induction c with
  | nil => simp [lookup] at h
  | cons hd rest ih =>
      obtain ⟨k0, e⟩ := hd
      by_cases h0 : k0 = key
      · subst h0
        simp [store]
      · simp [lookup, h0] at h
        simp [store, h0, ih h]

/-! ### Evaluation lemmas for one wrapper invocation -/

theorem wrapper_hit {E V : Type} (ttl_seconds : Nat) (func : Producer E V)
    (cache : Cache V) (args : List PyVal) (kwargs : List (String × PyVal))
    (tCheck tStore : Nat) (v : V) (ts : Nat)
    (hl : lookup cache (deriveKey args kwargs) = some (v, ts))
    (hfresh : tCheck - ts ≤ ttl_seconds) :
    wrapper ttl_seconds func cache args kwargs tCheck tStore = ⟨.ok v, cache, false⟩ := by
  simp [wrapper, hl, hfresh]

theorem wrapper_miss_ok {E V : Type} (ttl_seconds : Nat) (func : Producer E V)
    (cache : Cache V) (args : List PyVal) (kwargs : List (String × PyVal))
    (tCheck tStore : Nat) (v : V)
    (hmiss : missAt ttl_seconds cache (deriveKey args kwargs) tCheck = true)
    (hok : func args kwargs = .ok v) :
    wrapper ttl_seconds func cache args kwargs tCheck tStore
      = ⟨.ok v, store cache (deriveKey args kwargs) v tStore, true⟩ := by
  cases hl : lookup cache (deriveKey args kwargs) with
  | none => simp [wrapper, hl, callMiss, hok]
  | some p =>
      obtain ⟨v0, ts0⟩ := p
      unfold missAt at hmiss
      rw [hl] at hmiss
      simp only [decide_eq_true_eq] at hmiss
      simp [wrapper, hl, callMiss, hok, Nat.not_le.2 hmiss]

theorem wrapper_miss_err {E V : Type} (ttl_seconds : Nat) (func : Producer E V)
    (cache : Cache V) (args : List PyVal) (kwargs : List (String × PyVal))
    (tCheck tStore : Nat) (e : E)
    (hmiss : missAt ttl_seconds cache (deriveKey args kwargs) tCheck = true)
    (herr : func args kwargs = .error e) :
    wrapper ttl_seconds func cache args kwargs tCheck tStore = ⟨.error e, cache, true⟩ := by
  cases hl : lookup cache (deriveKey args kwargs) with
  | none => simp [wrapper, hl, callMiss, herr]
  | some p =>
      obtain ⟨v0, ts0⟩ := p
      unfold missAt at hmiss
      rw [hl] at hmiss
      simp only [decide_eq_true_eq] at hmiss
      simp [wrapper, hl, callMiss, herr, Nat.not_le.2 hmiss]

/-- The cache state after one invocation is either unchanged or the result of
storing the produced value under the derived key. -/
theorem wrapper_cache_cases {E V : Type} (ttl_seconds : Nat) (func : Producer E V)
    (cache : Cache V) (args : List PyVal) (kwargs : List (String × PyVal))
    (tCheck tStore : Nat) :
    (wrapper ttl_seconds func cache args kwargs tCheck tStore).cache = cache ∨
    ∃ v, (wrapper ttl_seconds func cache args kwargs tCheck tStore).cache
        = store cache (deriveKey args kwargs) v tStore := by
  cases hl : lookup cache (deriveKey args kwargs) with
  | none =>
      cases hf : func args kwargs with
      | ok v => exact Or.inr ⟨v, by simp [wrapper, callMiss, hl, hf]⟩
      | error e => exact Or.inl (by simp [wrapper, callMiss, hl, hf])
  | some p =>
      obtain ⟨v0, ts0⟩ := p
      by_cases hfr : tCheck - ts0 ≤ ttl_seconds
      · exact Or.inl (by simp [wrapper, hl, hfr])
      · cases hf : func args kwargs with
        | ok v => exact Or.inr ⟨v, by simp [wrapper, callMiss, hl, hfr, hf]⟩
        | error e => exact Or.inl (by simp [wrapper, callMiss, hl, hfr, hf])

/-- On the miss path the producer is always invoked, whatever its outcome. -/
theorem wrapper_invoked_of_miss {E V : Type} (ttl_seconds : Nat) (func : Producer E V)
    (cache : Cache V) (args : List PyVal) (kwargs : List (String × PyVal))
    (tCheck tStore : Nat)
    (hmiss : missAt ttl_seconds cache (deriveKey args kwargs) tCheck = true) :
    (wrapper ttl_seconds func cache args kwargs tCheck tStore).invoked = true := by
  cases hf : func args kwargs with
  | ok v =>
      simp [wrapper_miss_ok ttl_seconds func cache args kwargs tCheck tStore v hmiss hf]
  | error e =>
      simp [wrapper_miss_err ttl_seconds func cache args kwargs tCheck tStore e hmiss hf]

/-! ### Claims -/

/-- Claim C1: when the key is absent, two calls with the same argument tuple
within the TTL window invoke the underlying producer exactly once — the first
call is a miss that invokes it, the second is served from the cache without
invoking the producer and returns the same value. -/
theorem hit_within_ttl {E V : Type} (ttl_seconds : Nat) (func : Producer E V)
    (cache : Cache V) (args : List PyVal) (kwargs : List (String × PyVal))
    (t1 t1' t2 t2' : Nat) (v : V)
    (habsent : lookup cache (deriveKey args kwargs) = Option.none)
    (hok : func args kwargs = .ok v)
    (hfresh : t2 - t1' ≤ ttl_seconds) :
    (wrapper ttl_seconds func cache args kwargs t1 t1').invoked = true ∧
    (wrapper ttl_seconds func (wrapper ttl_seconds func cache args kwargs t1 t1').cache
        args kwargs t2 t2').invoked = false ∧
    (wrapper ttl_seconds func (wrapper ttl_seconds func cache args kwargs t1 t1').cache
        args kwargs t2 t2').result
      = (wrapper ttl_seconds func cache args kwargs t1 t1').result ∧
    (wrapper ttl_seconds func cache args kwargs t1 t1').result = .ok v := by
  have hmiss : missAt ttl_seconds cache (deriveKey args kwargs) t1 = true := by
    unfold missAt
    rw [habsent]
  have h1 := wrapper_miss_ok ttl_seconds func cache args kwargs t1 t1' v hmiss hok
  have h2 := wrapper_hit ttl_seconds func
      (store cache (deriveKey args kwargs) v t1') args kwargs t2 t2' v t1'
      (lookup_store_self cache (deriveKey args kwargs) v t1') hfresh
  simp [h1, h2]

/-- Witness for C1: a concrete cold call followed by a call one tick later. -/
theorem hit_within_ttl_witness :
    (wrapper 60 (fun _ _ => Except.ok (PyVal.int 7) : Producer Unit PyVal) []
        [PyVal.str "EUR"] [] 0 2).invoked = true ∧
    (wrapper 60 (fun _ _ => Except.ok (PyVal.int 7) : Producer Unit PyVal)
        (wrapper 60 (fun _ _ => Except.ok (PyVal.int 7) : Producer Unit PyVal) []
          [PyVal.str "EUR"] [] 0 2).cache [PyVal.str "EUR"] [] 3 3).invoked = false ∧
    (wrapper 60 (fun _ _ => Except.ok (PyVal.int 7) : Producer Unit PyVal)
        (wrapper 60 (fun _ _ => Except.ok (PyVal.int 7) : Producer Unit PyVal) []
          [PyVal.str "EUR"] [] 0 2).cache [PyVal.str "EUR"] [] 3 3).result
      = (wrapper 60 (fun _ _ => Except.ok (PyVal.int 7) : Producer Unit PyVal) []
          [PyVal.str "EUR"] [] 0 2).result ∧
    (wrapper 60 (fun _ _ => Except.ok (PyVal.int 7) : Producer Unit PyVal) []
        [PyVal.str "EUR"] [] 0 2).result = .ok (PyVal.int 7) :=
  hit_within_ttl 60 (fun _ _ => Except.ok (PyVal.int 7)) [] [PyVal.str "EUR"] []
    0 2 3 3 (PyVal.int 7) rfl rfl (by decide)

/-- Counterexample to claim C2 as stated: when the failing miss was caused by
a stale entry rather than an absent key, an entry for the key does still exist
afterward (the stale one is kept, not evicted), contradicting the claim's "no
entry exists for k afterward". -/
theorem failure_non_caching_cex :
    missAt 0 [(deriveKey [PyVal.str "EUR"] [], PyVal.int 7, 0)]
        (deriveKey [PyVal.str "EUR"] []) 5 = true ∧
    (wrapper 0 (fun _ _ => Except.error 3 : Producer Nat PyVal)
        [(deriveKey [PyVal.str "EUR"] [], PyVal.int 7, 0)] [PyVal.str "EUR"] [] 5 5).result
      = Except.error 3 ∧
    lookup (wrapper 0 (fun _ _ => Except.error 3 : Producer Nat PyVal)
        [(deriveKey [PyVal.str "EUR"] [], PyVal.int 7, 0)] [PyVal.str "EUR"] [] 5 5).cache
        (deriveKey [PyVal.str "EUR"] []) = some (PyVal.int 7, 0) ∧
    (some (PyVal.int 7, 0) : Option (PyVal × Nat)) ≠ Option.none :=
  ⟨rfl, rfl, rfl, by decide⟩

/-- Claim C2 (amended): if the producer raises during a miss for key k, the
exception propagates to the caller unchanged and the cache table is left
completely unmodified — in particular nothing is written for k, and if k was
absent before the call it is still absent afterward (a pre-existing stale
entry, however, remains in the table) — and any immediately following call for
k invokes the producer again rather than returning a cached failure. -/
theorem failure_non_caching {E V : Type} (ttl_seconds : Nat) (func : Producer E V)
    (cache : Cache V) (args : List PyVal) (kwargs : List (String × PyVal))
    (t2 t2' t3 t3' : Nat) (e : E)
    (hmiss : missAt ttl_seconds cache (deriveKey args kwargs) t2 = true)
    (herr : func args kwargs = .error e)
    (hle : t2 ≤ t3) :
    (wrapper ttl_seconds func cache args kwargs t2 t2').result = .error e ∧
    (wrapper ttl_seconds func cache args kwargs t2 t2').cache = cache ∧
    (lookup cache (deriveKey args kwargs) = Option.none →
      lookup (wrapper ttl_seconds func cache args kwargs t2 t2').cache
        (deriveKey args kwargs) = Option.none) ∧
    (wrapper ttl_seconds func
        (wrapper ttl_seconds func cache args kwargs t2 t2').cache
        args kwargs t3 t3').invoked = true := by
  have h1 := wrapper_miss_err ttl_seconds func cache args kwargs t2 t2' e hmiss herr
  have hmiss3 : missAt ttl_seconds cache (deriveKey args kwargs) t3 = true := by
    unfold missAt at hmiss ⊢
    cases hl : lookup cache (deriveKey args kwargs) with
    | none => rfl
    | some p =>
        obtain ⟨v0, ts0⟩ := p
        rw [hl] at hmiss
        simp only [decide_eq_true_eq] at hmiss ⊢
        omega
  refine ⟨by simp [h1], by simp [h1], ?_, ?_⟩
  · intro h
    simp [h1, h]
  · simp only [h1]
    exact wrapper_invoked_of_miss ttl_seconds func cache args kwargs t3 t3' hmiss3

/-- Witness for C2 (amended): a stale entry, a producer failing with error 3,
and a retry one tick later. -/
theorem failure_non_caching_witness :
    (wrapper 0 (fun _ _ => Except.error 3 : Producer Nat PyVal)
        [(deriveKey [PyVal.str "EUR"] [], PyVal.int 7, 0)] [PyVal.str "EUR"] [] 5 5).result
      = Except.error 3 ∧
    (wrapper 0 (fun _ _ => Except.error 3 : Producer Nat PyVal)
        [(deriveKey [PyVal.str "EUR"] [], PyVal.int 7, 0)] [PyVal.str "EUR"] [] 5 5).cache
      = [(deriveKey [PyVal.str "EUR"] [], PyVal.int 7, 0)] ∧
    (lookup [(deriveKey [PyVal.str "EUR"] [], PyVal.int 7, 0)]
        (deriveKey [PyVal.str "EUR"] []) = Option.none →
      lookup (wrapper 0 (fun _ _ => Except.error 3 : Producer Nat PyVal)
        [(deriveKey [PyVal.str "EUR"] [], PyVal.int 7, 0)] [PyVal.str "EUR"] [] 5 5).cache
        (deriveKey [PyVal.str "EUR"] []) = Option.none) ∧
    (wrapper 0 (fun _ _ => Except.error 3 : Producer Nat PyVal)
        (wrapper 0 (fun _ _ => Except.error 3 : Producer Nat PyVal)
          [(deriveKey [PyVal.str "EUR"] [], PyVal.int 7, 0)] [PyVal.str "EUR"] [] 5 5).cache
        [PyVal.str "EUR"] [] 6 6).invoked = true :=
  failure_non_caching 0 (fun _ _ => Except.error 3)
    [(deriveKey [PyVal.str "EUR"] [], PyVal.int 7, 0)] [PyVal.str "EUR"] []
    5 5 6 6 3 rfl rfl (by decide)

/-- Counterexample to claim C3 as stated: with ttl = 0, a second call at the
same instant the entry was written is a hit, not a miss — the producer is not
invoked — because the freshness test `now - computed_at <= ttl` uses `<=`. -/
theorem ttl_zero_same_instant_cex :
    (wrapper 0 (fun _ _ => Except.ok (PyVal.int 7) : Producer Unit PyVal)
        (wrapper 0 (fun _ _ => Except.ok (PyVal.int 7) : Producer Unit PyVal) []
          [PyVal.str "EUR"] [] 5 7).cache [PyVal.str "EUR"] [] 7 7).invoked = false ∧
    (wrapper 0 (fun _ _ => Except.ok (PyVal.int 7) : Producer Unit PyVal)
        (wrapper 0 (fun _ _ => Except.ok (PyVal.int 7) : Producer Unit PyVal) []
          [PyVal.str "EUR"] [] 5 7).cache [PyVal.str "EUR"] [] 7 7).result
      = .ok (PyVal.int 7) :=
  ⟨rfl, rfl⟩

/-- Claim C3 (amended): with ttl = 0 a stored entry is fresh only at the exact
instant it was written — every invocation strictly later than the stored
timestamp is a miss that invokes the producer (keys still being derived),
while an invocation at that same instant is served as a hit. -/
theorem ttl_zero_stale {E V : Type} (func : Producer E V) (cache : Cache V)
    (args : List PyVal) (kwargs : List (String × PyVal)) (tCheck tStore : Nat)
    (v : V) (ts : Nat)
    (hl : lookup cache (deriveKey args kwargs) = some (v, ts)) :
    (ts < tCheck → (wrapper 0 func cache args kwargs tCheck tStore).invoked = true) ∧
    (tCheck = ts → (wrapper 0 func cache args kwargs tCheck tStore).invoked = false ∧
      (wrapper 0 func cache args kwargs tCheck tStore).result = .ok v) := by
  constructor
  · intro hlt
    apply wrapper_invoked_of_miss
    unfold missAt
    rw [hl]
    simp only [decide_eq_true_eq]
    omega
  · intro heq
    subst heq
    have h := wrapper_hit 0 func cache args kwargs tCheck tStore v tCheck hl
      (by omega)
    simp [h]

/-- Witness for C3 (amended): an entry stamped 5; a call at 6 invokes the
producer, a call at 5 does not. -/
theorem ttl_zero_stale_witness :
    (wrapper 0 (fun _ _ => Except.ok (PyVal.int 7) : Producer Unit PyVal)
        [(deriveKey [PyVal.int 1] [], PyVal.int 7, 5)] [PyVal.int 1] [] 6 6).invoked
      = true ∧
    (wrapper 0 (fun _ _ => Except.ok (PyVal.int 7) : Producer Unit PyVal)
        [(deriveKey [PyVal.int 1] [], PyVal.int 7, 5)] [PyVal.int 1] [] 5 5).invoked
      = false :=
  ⟨(ttl_zero_stale (fun _ _ => Except.ok (PyVal.int 7))
      [(deriveKey [PyVal.int 1] [], PyVal.int 7, 5)] [PyVal.int 1] [] 6 6
      (PyVal.int 7) 5 rfl).1 (by decide),
   ((ttl_zero_stale (fun _ _ => Except.ok (PyVal.int 7))
      [(deriveKey [PyVal.int 1] [], PyVal.int 7, 5)] [PyVal.int 1] [] 5 5
      (PyVal.int 7) 5 rfl).2 rfl).1⟩

/-- Claim C4: when the stored entry is stale (the gap since its timestamp
exceeds the TTL), a call with the same arguments is a miss: the producer is
invoked again, the entry is overwritten in place (the table keeps its size and
all other keys are untouched) with the new value and the timestamp of the
recomputation. -/
theorem expiry_recompute {E V : Type} (ttl_seconds : Nat) (func : Producer E V)
    (cache : Cache V) (args : List PyVal) (kwargs : List (String × PyVal))
    (tCheck tStore : Nat) (v1 : V) (ts : Nat) (v2 : V)
    (hold : lookup cache (deriveKey args kwargs) = some (v1, ts))
    (hstale : ttl_seconds < tCheck - ts)
    (hok : func args kwargs = .ok v2) :
    (wrapper ttl_seconds func cache args kwargs tCheck tStore).invoked = true ∧
    (wrapper ttl_seconds func cache args kwargs tCheck tStore).result = .ok v2 ∧
    lookup (wrapper ttl_seconds func cache args kwargs tCheck tStore).cache
        (deriveKey args kwargs) = some (v2, tStore) ∧
    (∀ k, k ≠ deriveKey args kwargs →
      lookup (wrapper ttl_seconds func cache args kwargs tCheck tStore).cache k
        = lookup cache k) ∧
    (wrapper ttl_seconds func cache args kwargs tCheck tStore).cache.length
      = cache.length := by
  have hmiss : missAt ttl_seconds cache (deriveKey args kwargs) tCheck = true := by
    unfold missAt
    rw [hold]
    simp [hstale]
  have h1 := wrapper_miss_ok ttl_seconds func cache args kwargs tCheck tStore v2 hmiss hok
  refine ⟨by simp [h1], by simp [h1], ?_, ?_, ?_⟩
  · simp [h1, lookup_store_self]
  · intro k hk
    simp [h1, lookup_store_ne _ _ _ _ _ hk]
  · simp only [h1]
    exact store_length_of_mem cache (deriveKey args kwargs) v2 tStore
      (by rw [hold]; rfl)

/-- Witness for C4: a stale entry written at time 0 with TTL 60, recomputed at
time 100. -/
theorem expiry_recompute_witness :
    (wrapper 60 (fun _ _ => Except.ok (PyVal.int 9) : Producer Unit PyVal)
        [(deriveKey [PyVal.str "EUR"] [], PyVal.int 7, 0)] [PyVal.str "EUR"] []
        100 100).invoked = true ∧
    (wrapper 60 (fun _ _ => Except.ok (PyVal.int 9) : Producer Unit PyVal)
        [(deriveKey [PyVal.str "EUR"] [], PyVal.int 7, 0)] [PyVal.str "EUR"] []
        100 100).result = .ok (PyVal.int 9) ∧
    lookup (wrapper 60 (fun _ _ => Except.ok (PyVal.int 9) : Producer Unit PyVal)
        [(deriveKey [PyVal.str "EUR"] [], PyVal.int 7, 0)] [PyVal.str "EUR"] []
        100 100).cache (deriveKey [PyVal.str "EUR"] []) = some (PyVal.int 9, 100) ∧
    (∀ k, k ≠ deriveKey [PyVal.str "EUR"] [] →
      lookup (wrapper 60 (fun _ _ => Except.ok (PyVal.int 9) : Producer Unit PyVal)
        [(deriveKey [PyVal.str "EUR"] [], PyVal.int 7, 0)] [PyVal.str "EUR"] []
        100 100).cache k
        = lookup [(deriveKey [PyVal.str "EUR"] [], PyVal.int 7, 0)] k) ∧
    (wrapper 60 (fun _ _ => Except.ok (PyVal.int 9) : Producer Unit PyVal)
        [(deriveKey [PyVal.str "EUR"] [], PyVal.int 7, 0)] [PyVal.str "EUR"] []
        100 100).cache.length
      = [(deriveKey [PyVal.str "EUR"] [], PyVal.int 7, 0)].length :=
  expiry_recompute 60 (fun _ _ => Except.ok (PyVal.int 9))
    [(deriveKey [PyVal.str "EUR"] [], PyVal.int 7, 0)] [PyVal.str "EUR"] []
    100 100 (PyVal.int 7) 0 (PyVal.int 9) rfl (by decide) rfl

/-- Claim C7: no invocation ever deletes a cache entry — every key present
before a call is still present after it, and entries under any key other than
the derived one are completely untouched (stale entries are skipped on lookup
but never evicted). -/
theorem no_eviction {E V : Type} (ttl_seconds : Nat) (func : Producer E V)
    (cache : Cache V) (args : List PyVal) (kwargs : List (String × PyVal))
    (tCheck tStore : Nat) :
    (∀ k, (lookup cache k).isSome = true →
      (lookup (wrapper ttl_seconds func cache args kwargs tCheck tStore).cache k).isSome
        = true) ∧
    (∀ k, k ≠ deriveKey args kwargs →
      lookup (wrapper ttl_seconds func cache args kwargs tCheck tStore).cache k
        = lookup cache k) := by
  rcases wrapper_cache_cases ttl_seconds func cache args kwargs tCheck tStore with
    h | ⟨v, h⟩
  · rw [h]
    exact ⟨fun k hk => hk, fun k _ => rfl⟩
  · rw [h]
    constructor
    · intro k hk
      by_cases hkk : k = deriveKey args kwargs
      · subst hkk
        simp [lookup_store_self]
      · rw [lookup_store_ne _ _ _ _ _ hkk]
        exact hk
    · intro k hk
      exact lookup_store_ne _ _ _ _ _ hk

/-- Witness for C7: an unrelated pre-existing entry survives a call that
writes a different key. -/
theorem no_eviction_witness :
    (lookup (wrapper 60 (fun _ _ => Except.ok (PyVal.int 1) : Producer Unit PyVal)
        [("K", PyVal.int 0, 0)] [PyVal.str "EUR"] [] 99 99).cache "K").isSome = true :=
  (no_eviction 60 (fun _ _ => Except.ok (PyVal.int 1)) [("K", PyVal.int 0, 0)]
    [PyVal.str "EUR"] [] 99 99).1 "K" rfl

/-- Claim C8: in any non-caching scenario (absent key or stale entry), the
wrapper forwards the received positional and keyword arguments to the producer
and returns exactly what the unwrapped producer returns for them. -/
theorem pass_through_fidelity {E V : Type} (ttl_seconds : Nat) (func : Producer E V)
    (cache : Cache V) (args : List PyVal) (kwargs : List (String × PyVal))
    (tCheck tStore : Nat)
    (hmiss : missAt ttl_seconds cache (deriveKey args kwargs) tCheck = true) :
    (wrapper ttl_seconds func cache args kwargs tCheck tStore).result = func args kwargs ∧
    (wrapper ttl_seconds func cache args kwargs tCheck tStore).invoked = true := by
  cases hf : func args kwargs with
  | ok v =>
      have h1 := wrapper_miss_ok ttl_seconds func cache args kwargs tCheck tStore v hmiss hf
      simp [h1, hf]
  | error e =>
      have h1 := wrapper_miss_err ttl_seconds func cache args kwargs tCheck tStore e hmiss hf
      simp [h1, hf]

/-- Witness for C8: a stale entry at TTL 1, recomputed at time 5. -/
theorem pass_through_fidelity_witness :
    (wrapper 1 (fun _ _ => Except.ok (PyVal.int 9) : Producer Unit PyVal)
        [(deriveKey [PyVal.int 3] [], PyVal.int 0, 0)] [PyVal.int 3] [] 5 5).result
      = Except.ok (PyVal.int 9) ∧
    (wrapper 1 (fun _ _ => Except.ok (PyVal.int 9) : Producer Unit PyVal)
        [(deriveKey [PyVal.int 3] [], PyVal.int 0, 0)] [PyVal.int 3] [] 5 5).invoked
      = true :=
  pass_through_fidelity 1 (fun _ _ => Except.ok (PyVal.int 9))
    [(deriveKey [PyVal.int 3] [], PyVal.int 0, 0)] [PyVal.int 3] [] 5 5 rfl

/-- Counterexample to claim C5 as stated: the same values passed positionally
versus by keyword derive different key strings, so the keyword-style call
misses — invoking the producer again — even though a fresh entry from the
positional call exists. -/
theorem positional_keyword_key_cex :
    deriveKey [PyVal.str "EUR", PyVal.str "USD"] []
      ≠ deriveKey [] [("from_currency", PyVal.str "EUR"),
          ("to_currency", PyVal.str "USD")] ∧
    (wrapper 60 (fun _ _ => Except.ok (PyVal.int 7) : Producer Unit PyVal)
        (wrapper 60 (fun _ _ => Except.ok (PyVal.int 7) : Producer Unit PyVal) []
          [PyVal.str "EUR", PyVal.str "USD"] [] 0 0).cache
        [] [("from_currency", PyVal.str "EUR"), ("to_currency", PyVal.str "USD")]
        1 1).invoked = true := by
  refine ⟨by decide, rfl⟩

/-- Claim C5 (amended): the key is derived deterministically from the received
(args, kwargs) pair, so a repeated call passing the same values in the same
positional/keyword shape derives the same key and, within the TTL window, hits
the entry written by the first call; the same values passed positionally
versus by keyword, however, derive different keys and are cached separately. -/
theorem key_derivation_stable {E V : Type} (ttl_seconds : Nat) (func : Producer E V)
    (cache : Cache V) (args : List PyVal) (kwargs : List (String × PyVal))
    (t1 t1' t2 t2' : Nat) (v : V)
    (habsent : lookup cache (deriveKey args kwargs) = Option.none)
    (hok : func args kwargs = .ok v)
    (hfresh : t2 - t1' ≤ ttl_seconds) :
    (wrapper ttl_seconds func (wrapper ttl_seconds func cache args kwargs t1 t1').cache
        args kwargs t2 t2').invoked = false ∧
    (wrapper ttl_seconds func (wrapper ttl_seconds func cache args kwargs t1 t1').cache
        args kwargs t2 t2').result = .ok v := by
  have hmiss : missAt ttl_seconds cache (deriveKey args kwargs) t1 = true := by
    unfold missAt
    rw [habsent]
  have h1 := wrapper_miss_ok ttl_seconds func cache args kwargs t1 t1' v hmiss hok
  have h2 := wrapper_hit ttl_seconds func
      (store cache (deriveKey args kwargs) v t1') args kwargs t2 t2' v t1'
      (lookup_store_self cache (deriveKey args kwargs) v t1') hfresh
  simp [h1, h2]

/-- Witness for C5 (amended): a repeated `(1, 2)` call two ticks later. -/
theorem key_derivation_stable_witness :
    (wrapper 60 (fun _ _ => Except.ok (PyVal.int 3) : Producer Unit PyVal)
        (wrapper 60 (fun _ _ => Except.ok (PyVal.int 3) : Producer Unit PyVal) []
          [PyVal.int 1, PyVal.int 2] [] 0 0).cache
        [PyVal.int 1, PyVal.int 2] [] 2 2).invoked = false ∧
    (wrapper 60 (fun _ _ => Except.ok (PyVal.int 3) : Producer Unit PyVal)
        (wrapper 60 (fun _ _ => Except.ok (PyVal.int 3) : Producer Unit PyVal) []
          [PyVal.int 1, PyVal.int 2] [] 0 0).cache
        [PyVal.int 1, PyVal.int 2] [] 2 2).result = .ok (PyVal.int 3) :=
  key_derivation_stable 60 (fun _ _ => Except.ok (PyVal.int 3)) []
    [PyVal.int 1, PyVal.int 2] [] 0 0 2 2 (PyVal.int 3) rfl rfl (by decide)

/-- Counterexample to claim C6 as stated: two distinct argument values — two
distinct objects whose reprs coincide — derive the same key, so the second
call incorrectly shares the first call's entry: the producer, which would
return a different value for the second argument, is not invoked and the first
argument's cached value is returned. -/
theorem repr_collision_cex :
    [PyVal.obj "<C>" 0] ≠ [PyVal.obj "<C>" 1] ∧
    deriveKey [PyVal.obj "<C>" 0] [] = deriveKey [PyVal.obj "<C>" 1] [] ∧
    (fun args _ => Except.ok
        (if args = [PyVal.obj "<C>" 0] then PyVal.int 1 else PyVal.int 2)
      : Producer Unit PyVal) [PyVal.obj "<C>" 1] [] = .ok (PyVal.int 2) ∧
    (wrapper 60 (fun args _ => Except.ok
        (if args = [PyVal.obj "<C>" 0] then PyVal.int 1 else PyVal.int 2)
        : Producer Unit PyVal)
      (wrapper 60 (fun args _ => Except.ok
          (if args = [PyVal.obj "<C>" 0] then PyVal.int 1 else PyVal.int 2)
          : Producer Unit PyVal) [] [PyVal.obj "<C>" 0] [] 0 0).cache
      [PyVal.obj "<C>" 1] [] 1 1).invoked = false ∧
    (wrapper 60 (fun args _ => Except.ok
        (if args = [PyVal.obj "<C>" 0] then PyVal.int 1 else PyVal.int 2)
        : Producer Unit PyVal)
      (wrapper 60 (fun args _ => Except.ok
          (if args = [PyVal.obj "<C>" 0] then PyVal.int 1 else PyVal.int 2)
          : Producer Unit PyVal) [] [PyVal.obj "<C>" 0] [] 0 0).cache
      [PyVal.obj "<C>" 1] [] 1 1).result = .ok (PyVal.int 1) :=
  ⟨by decide, rfl, rfl, rfl, rfl⟩

/-- Claim C6 (amended): argument sets whose derived keys differ — which
distinct argument values guarantee exactly when their reprs are injective —
are tracked under distinct entries: a call with one never changes or refreshes
the entry stored under the other's key. -/
theorem distinct_keys_independent {E V : Type} (ttl_seconds : Nat)
    (func : Producer E V) (cache : Cache V)
    (a : List PyVal) (ka : List (String × PyVal))
    (b : List PyVal) (kb : List (String × PyVal)) (tCheck tStore : Nat)
    (hne : deriveKey b kb ≠ deriveKey a ka) :
    lookup (wrapper ttl_seconds func cache a ka tCheck tStore).cache (deriveKey b kb)
      = lookup cache (deriveKey b kb) := by
  rcases wrapper_cache_cases ttl_seconds func cache a ka tCheck tStore with h | ⟨v, h⟩
  · rw [h]
  · rw [h, lookup_store_ne _ _ _ _ _ hne]

/-- Witness for C6 (amended): a `("EUR","USD")` call leaves the
`("EUR","GBP")` entry untouched. -/
theorem distinct_keys_independent_witness :
    lookup (wrapper 60 (fun _ _ => Except.ok (PyVal.int 1) : Producer Unit PyVal)
        [(deriveKey [PyVal.str "EUR", PyVal.str "GBP"] [], PyVal.int 5, 2)]
        [PyVal.str "EUR", PyVal.str "USD"] [] 9 9).cache
        (deriveKey [PyVal.str "EUR", PyVal.str "GBP"] [])
      = lookup [(deriveKey [PyVal.str "EUR", PyVal.str "GBP"] [], PyVal.int 5, 2)]
          (deriveKey [PyVal.str "EUR", PyVal.str "GBP"] []) :=
  distinct_keys_independent 60 (fun _ _ => Except.ok (PyVal.int 1))
    [(deriveKey [PyVal.str "EUR", PyVal.str "GBP"] [], PyVal.int 5, 2)]
    [PyVal.str "EUR", PyVal.str "USD"] [] [PyVal.str "EUR", PyVal.str "GBP"] []
    9 9 (by decide)

/-- Claim C9: a produced value equal to None — and likewise the falsy 0 — is
cached and served like any other value: the hit check tests key membership in
the table, not truthiness of the stored value, so the second call within the
TTL window does not invoke the producer and returns the cached falsy value. -/
theorem falsy_value_cached :
    (wrapper 60 (fun _ _ => Except.ok PyVal.none : Producer Unit PyVal) []
        [PyVal.str "A"] [] 0 0).invoked = true ∧
    (wrapper 60 (fun _ _ => Except.ok PyVal.none : Producer Unit PyVal)
        (wrapper 60 (fun _ _ => Except.ok PyVal.none : Producer Unit PyVal) []
          [PyVal.str "A"] [] 0 0).cache [PyVal.str "A"] [] 1 1).invoked = false ∧
    (wrapper 60 (fun _ _ => Except.ok PyVal.none : Producer Unit PyVal)
        (wrapper 60 (fun _ _ => Except.ok PyVal.none : Producer Unit PyVal) []
          [PyVal.str "A"] [] 0 0).cache [PyVal.str "A"] [] 1 1).result
      = .ok PyVal.none ∧
    (wrapper 60 (fun _ _ => Except.ok (PyVal.int 0) : Producer Unit PyVal) []
        [PyVal.str "B"] [] 0 0).invoked = true ∧
    (wrapper 60 (fun _ _ => Except.ok (PyVal.int 0) : Producer Unit PyVal)
        (wrapper 60 (fun _ _ => Except.ok (PyVal.int 0) : Producer Unit PyVal) []
          [PyVal.str "B"] [] 0 0).cache [PyVal.str "B"] [] 1 1).invoked = false ∧
    (wrapper 60 (fun _ _ => Except.ok (PyVal.int 0) : Producer Unit PyVal)
        (wrapper 60 (fun _ _ => Except.ok (PyVal.int 0) : Producer Unit PyVal) []
          [PyVal.str "B"] [] 0 0).cache [PyVal.str "B"] [] 1 1).result
      = .ok (PyVal.int 0) :=
  ⟨rfl, rfl, rfl, rfl, rfl, rfl⟩

/-! ### The demo producer -/

/-- A list of seven characters whose only occurrence of `2` is at index 3
splits an equation `l ++ '2' :: r = ...` uniquely. -/
theorem split_seven {l r : List Char} {c0 c1 c2 c4 c5 c6 : Char}
    (h0 : '2' ≠ c0) (h1 : '2' ≠ c1) (h2 : '2' ≠ c2)
    (h4 : '2' ≠ c4) (h5 : '2' ≠ c5) (h6 : '2' ≠ c6)
    (h : l ++ '2' :: r = [c0, c1, c2, '2', c4, c5, c6]) :
    l = [c0, c1, c2] ∧ r = [c4, c5, c6] := by
  rcases l with _ | ⟨x0, _ | ⟨x1, _ | ⟨x2, _ | ⟨x3, _ | ⟨x4, _ | ⟨x5, _ | ⟨x6, _ | ⟨x7, l⟩⟩⟩⟩⟩⟩⟩⟩ <;>
    simp_all

/-- The only way to obtain the key "EUR2USD" is from the pair ("EUR", "USD"). -/
theorem key_eq_EUR2USD {a b : String} (h : a ++ "2" ++ b = "EUR2USD") :
    a = "EUR" ∧ b = "USD" := by
  have hd : a.data ++ '2' :: b.data = ['E', 'U', 'R', '2', 'U', 'S', 'D'] := by
    have hc := congrArg String.data h
    simpa [String.data_append] using hc
  obtain ⟨ha, hb⟩ := split_seven (by decide) (by decide) (by decide) (by decide)
    (by decide) (by decide) hd
  cases a
  cases b
  simp_all

/-- The only way to obtain the key "EUR2GBP" is from the pair ("EUR", "GBP"). -/
theorem key_eq_EUR2GBP {a b : String} (h : a ++ "2" ++ b = "EUR2GBP") :
    a = "EUR" ∧ b = "GBP" := by
  have hd : a.data ++ '2' :: b.data = ['E', 'U', 'R', '2', 'G', 'B', 'P'] := by
    have hc := congrArg String.data h
    simpa [String.data_append] using hc
  obtain ⟨ha, hb⟩ := split_seven (by decide) (by decide) (by decide) (by decide)
    (by decide) (by decide) hd
  cases a
  cases b
  simp_all

/-- The only way to obtain the key "GBP2USD" is from the pair ("GBP", "USD"). -/
theorem key_eq_GBP2USD {a b : String} (h : a ++ "2" ++ b = "GBP2USD") :
    a = "GBP" ∧ b = "USD" := by
  have hd : a.data ++ '2' :: b.data = ['G', 'B', 'P', '2', 'U', 'S', 'D'] := by
    have hc := congrArg String.data h
    simpa [String.data_append] using hc
  obtain ⟨ha, hb⟩ := split_seven (by decide) (by decide) (by decide) (by decide)
    (by decide) (by decide) hd
  cases a
  cases b
  simp_all

/-- Claim C10: the demo producer returns 1.18 for ("EUR","USD"), 0.88 for
("EUR","GBP"), None — not 1.32, since that branch evaluates the literal
without returning it — for ("GBP","USD"), and the int 0 for every other pair
of currency strings. -/
theorem fetch_exchange_rate_spec :
    fetch_exchange_rate "EUR" "USD" = Rate.val (118 / 100) ∧
    fetch_exchange_rate "EUR" "GBP" = Rate.val (88 / 100) ∧
    fetch_exchange_rate "GBP" "USD" = Rate.none ∧
    fetch_exchange_rate "GBP" "USD" ≠ Rate.val (132 / 100) ∧
    ∀ a b : String, (a, b) ≠ ("EUR", "USD") → (a, b) ≠ ("EUR", "GBP") →
      (a, b) ≠ ("GBP", "USD") → fetch_exchange_rate a b = Rate.intVal 0 := by
  refine ⟨rfl, rfl, rfl, fun h => Rate.noConfusion h, ?_⟩
  intro a b hne1 hne2 hne3
  by_cases h1 : a ++ "2" ++ b = "EUR2USD"
  · obtain ⟨ha, hb⟩ := key_eq_EUR2USD h1
    subst ha
    subst hb
    exact absurd rfl hne1
  by_cases h2 : a ++ "2" ++ b = "EUR2GBP"
  · obtain ⟨ha, hb⟩ := key_eq_EUR2GBP h2
    subst ha
    subst hb
    exact absurd rfl hne2
  by_cases h3 : a ++ "2" ++ b = "GBP2USD"
  · obtain ⟨ha, hb⟩ := key_eq_GBP2USD h3
    subst ha
    subst hb
    exact absurd rfl hne3
  simp [fetch_exchange_rate, h1, h2, h3]

/-- Witness for C10: the pair ("USD", "EUR") falls into the default branch. -/
theorem fetch_exchange_rate_spec_witness :
    fetch_exchange_rate "USD" "EUR" = Rate.intVal 0 :=
  fetch_exchange_rate_spec.2.2.2.2 "USD" "EUR" (by decide) (by decide) (by decide)

end AsyncCache
